import Mathlib

/-!
Verification of the caryn-ops ingestion / aggregation / dispatch pipeline.

The definitions below are a shallow embedding of the repository's
TypeScript sources:

* `src/utils/csvParser.ts` (full-schema variant): `parseCSV` (embedded as
  `processRow` / `foldRecord` / `parseCSVRows`), `validateCSVHeaders`,
  `getAgenciesNeedingLookup`, `calculateStatistics`.
* `src/components/dashboard/AgenciesTable.tsx` (notification-only
  variant): `mapRow`, the `onDrop` pipeline, the `defval` behaviour of
  `parseExcelFile`.
* `supabase/functions/send-batch-email/index.ts`: request validation and
  the per-member send loop of the edge-function handler.

JavaScript numeric semantics are modelled by `JSNum` (NaN and the two
infinities are explicit constructors; finite doubles are modelled as exact
rationals, which is adequate here because no claim depends on binary
rounding).  `parseFloatJS`, `numberJS` and `parseIntJS` model the ECMA
decimal string-to-number conversions (hex/octal/binary literal forms of
`Number` are not modelled; no claim involves them).
-/

instance {ε α : Type} [DecidableEq ε] [DecidableEq α] : DecidableEq (Except ε α) := fun x y =>
  match x, y with
  | .error a, .error b =>
    if h : a = b then .isTrue (by rw [h]) else .isFalse (by simp [h])
  | .ok a, .ok b =>
    if h : a = b then .isTrue (by rw [h]) else .isFalse (by simp [h])
  | .error _, .ok _ => .isFalse (by simp)
  | .ok _, .error _ => .isFalse (by simp)

/-- JavaScript number: NaN, the infinities, or a finite value (exact ℚ). -/
inductive JSNum where
  | nan : JSNum
  | inf : JSNum
  | neginf : JSNum
  | num : ℚ → JSNum
deriving DecidableEq

/-- The isNaN test. -/
def JSNum.isNaN : JSNum → Bool
  | .nan => true
  | _ => false

/-- The test x < 0 on a JavaScript number (false for NaN). -/
def JSNum.ltZero : JSNum → Bool
  | .nan => false
  | .inf => false
  | .neginf => true
  | .num q => decide (q < 0)

/-- JavaScript addition on numbers (modulo binary rounding). -/
def JSNum.add : JSNum → JSNum → JSNum
  | .nan, _ => .nan
  | _, .nan => .nan
  | .inf, .neginf => .nan
  | .neginf, .inf => .nan
  | .inf, _ => .inf
  | _, .inf => .inf
  | .neginf, _ => .neginf
  | _, .neginf => .neginf
  | .num a, .num b => .num (a + b)

/-- JavaScript whitespace recognised by trim and the numeric conversions
(restricted to the ASCII whitespace that can occur in the pipeline's data). -/
def isJsSpace (c : Char) : Bool :=
  c == ' ' || c == '\t' || c == '\n' || c == '\r'

/-- Remove leading and trailing whitespace from a character list. -/
def trimChars (l : List Char) : List Char :=
  ((l.dropWhile isJsSpace).reverse.dropWhile isJsSpace).reverse

/-- Model of the JavaScript String.prototype.trim. -/
def jsTrim (s : String) : String :=
  String.mk (trimChars s.toList)

/-- Numeric value of a list of decimal digits. -/
def digitsToNat (ds : List Char) : Nat :=
  ds.foldl (fun a c => a * 10 + (c.toNat - 48)) 0

/-- Split a character list into its longest digit run and the remainder. -/
def takeDigits : List Char → List Char × List Char
  | [] => ([], [])
  | c :: cs =>
    if c.isDigit then
      let p := takeDigits cs
      (c :: p.1, p.2)
    else ([], c :: cs)

/-- Recognise the literal Infinity, returning the remaining characters. -/
def dropInfinityLit : List Char → Option (List Char)
  | 'I' :: 'n' :: 'f' :: 'i' :: 'n' :: 'i' :: 't' :: 'y' :: r => some r
  | _ => none

/-- Parse an optional sign followed by at least one digit (the exponent part
of a decimal literal).  Returns the exponent and the remaining characters. -/
def parseExpPart (cs : List Char) : Option (Int × List Char) :=
  match cs with
  | '+' :: rest =>
    let p := takeDigits rest
    if p.1.isEmpty then none else some ((digitsToNat p.1 : Int), p.2)
  | '-' :: rest =>
    let p := takeDigits rest
    if p.1.isEmpty then none else some (-(digitsToNat p.1 : Int), p.2)
  | rest =>
    let p := takeDigits rest
    if p.1.isEmpty then none else some ((digitsToNat p.1 : Int), p.2)

/-- Ten raised to an integer power, as a rational. -/
def tenPow (e : Int) : ℚ :=
  if 0 ≤ e then ((10 : ℚ) ^ e.toNat) else 1 / ((10 : ℚ) ^ (-e).toNat)

/-- Parse the longest unsigned decimal literal (digits, optional fraction,
optional exponent) at the head of the list; none when no digit is present.
Returns the value and the remaining characters. -/
def parseDecimalLit (cs : List Char) : Option (ℚ × List Char) :=
  let ip := takeDigits cs
  let core : Option (ℚ × List Char) :=
    match ip.2 with
    | '.' :: afterDot =>
      let fp := takeDigits afterDot
      if ip.1.isEmpty && fp.1.isEmpty then none
      else
        some ((digitsToNat ip.1 : ℚ) + (digitsToNat fp.1 : ℚ) / ((10 : ℚ) ^ fp.1.length), fp.2)
    | _ =>
      if ip.1.isEmpty then none else some ((digitsToNat ip.1 : ℚ), ip.2)
  match core with
  | none => none
  | some (m, rest) =>
    match rest with
    | 'e' :: afterE =>
      match parseExpPart afterE with
      | some (e, rest2) => some (m * tenPow e, rest2)
      | none => some (m, rest)
    | 'E' :: afterE =>
      match parseExpPart afterE with
      | some (e, rest2) => some (m * tenPow e, rest2)
      | none => some (m, rest)
    | _ => some (m, rest)

/-- Model of the ECMA parseFloat: skip leading whitespace, optional sign,
then the longest decimal literal or Infinity, ignoring trailing characters;
NaN when no literal is found. -/
def parseFloatJS (s : String) : JSNum :=
  let cs := s.toList.dropWhile isJsSpace
  let signed : Bool × List Char :=
    match cs with
    | '+' :: rest => (false, rest)
    | '-' :: rest => (true, rest)
    | rest => (false, rest)
  match dropInfinityLit signed.2 with
  | some _ => if signed.1 then .neginf else .inf
  | none =>
    match parseDecimalLit signed.2 with
    | none => .nan
    | some (q, _) => .num (if signed.1 then -q else q)

/-- Model of the ECMA Number conversion on strings (decimal forms): the
whole trimmed string must be a signed decimal literal or Infinity; the empty
trimmed string converts to 0; anything else is NaN. -/
def numberJS (s : String) : JSNum :=
  let cs := trimChars s.toList
  match cs with
  | [] => .num 0
  | _ =>
    let signed : Bool × List Char :=
      match cs with
      | '+' :: rest => (false, rest)
      | '-' :: rest => (true, rest)
      | rest => (false, rest)
    match dropInfinityLit signed.2 with
    | some [] => if signed.1 then .neginf else .inf
    | some _ => .nan
    | none =>
      match parseDecimalLit signed.2 with
      | some (q, []) => .num (if signed.1 then -q else q)
      | _ => .nan

/-- Number applied to a possibly-undefined field: Number of undefined is NaN. -/
def numberOpt (o : Option String) : JSNum :=
  match o with
  | none => .nan
  | some s => numberJS s

/-- Model of parseInt(s, 10): skip whitespace, optional sign, longest digit
run; none models the NaN result when no digit is present. -/
def parseIntJS (s : String) : Option Int :=
  let cs := s.toList.dropWhile isJsSpace
  let signed : Bool × List Char :=
    match cs with
    | '+' :: rest => (false, rest)
    | '-' :: rest => (true, rest)
    | rest => (false, rest)
  let p := takeDigits signed.2
  if p.1.isEmpty then none
  else some (if signed.1 then -(digitsToNat p.1 : Int) else (digitsToNat p.1 : Int))

/-- JavaScript truthiness of an optional string: undefined and the empty
string are falsy. -/
def truthyOpt (o : Option String) : Bool :=
  match o with
  | none => false
  | some s => !(s == "")

/-- The idiom value.trim() followed by a fallback to undefined: an empty or
absent value becomes absent. -/
def undefIfEmpty (o : Option String) : Option String :=
  match o with
  | none => none
  | some s => if s == "" then none else some s

/-- Model of the test of the regular expression used by the edge function
for addresses: one run of non-whitespace non-at characters, an at sign,
then a run containing a dot that is neither its first nor its last
character. -/
def emailRegexTest (s : String) : Bool :=
  match s.toList.splitOn '@' with
  | [before, after] =>
    !before.isEmpty &&
    before.all (fun c => !c.isWhitespace) &&
    after.all (fun c => !c.isWhitespace) &&
    ((after.drop 1).dropLast.contains '.')
  | _ => false

/-! ## Full-schema variant: csvParser.ts -/

/-- A parsed member (csvParser.ts, interface ParsedMember).  After a
successful parse, days_late is a non-negative integer or absent. -/
structure ParsedMember where
  name : String
  amount_due : JSNum
  agency_name : String
  agency_email : Option String
  days_late : Option Int
  member_id : Option String
  phone : Option String
  email : Option String
deriving DecidableEq

/-- An agency with its members (csvParser.ts, interface AgencyWithMembers). -/
structure AgencyWithMembers where
  agency_name : String
  agency_email : Option String
  needs_lookup : Bool
  members : List ParsedMember
deriving DecidableEq

/-- The agency map built by parseCSV: a string-keyed object in insertion
order, modelled as an association list with unique keys read from the
front. -/
abbrev AgencyMap := List (String × AgencyWithMembers)

/-- A parse error of the resolved result (csvParser.ts, interface
ParseError): the row is an integer because a decoder-reported error with no
row number is recorded with row -1 (csvParser.ts line 183). -/
structure ParseError where
  row : Int
  message : String
deriving DecidableEq

/-- The complete result of parseCSV (csvParser.ts, CSVParseResult). -/
structure CSVParseResult where
  data : AgencyMap
  errors : List ParseError
  totalMembers : Nat
  totalAgencies : Nat
deriving DecidableEq

/-- A raw CSV row (csvParser.ts, interface CSVRow): each declared column is
present as a string or absent. -/
structure CSVRow where
  memberName : Option String
  amount : Option String
  agency : Option String
  agencyEmail : Option String
  daysLate : Option String
  memberId : Option String
  phone : Option String
  email : Option String
deriving DecidableEq

/-- An error reported by the PapaParse decoder itself (results.errors):
carries a message and possibly a row number. -/
structure PapaError where
  row : Option Int
  message : String
deriving DecidableEq

/-- What the PapaParse complete callback receives: the decoded rows and the
decoder-reported errors.  A zero-byte or otherwise degenerate file can
decode to zero rows while still carrying decoder diagnostics here. -/
structure PapaResults where
  data : List CSVRow
  errors : List PapaError
deriving DecidableEq

/-- The replace of all dollar signs and commas in the amount text. -/
def stripCurrency (s : String) : String :=
  String.mk (s.toList.filter (fun c => !(c == '$' || c == ',')))

/-- The per-row mapping of parseCSV (csvParser.ts lines 93 to 148): trim,
required-field check, amount parsing, optional-field extraction and the
days-late check, producing either the member or the error message pushed
for that row. -/
def processRow (row : CSVRow) : Except String ParsedMember :=
  let memberName := row.memberName.map jsTrim
  let amountStr := row.amount.map jsTrim
  let agencyName := row.agency.map jsTrim
  if !truthyOpt memberName || !truthyOpt amountStr || !truthyOpt agencyName then
    .error "Missing required fields (Member Name, Amount, or Agency)"
  else
    let amountText := amountStr.getD ""
    let amountDue := parseFloatJS (stripCurrency amountText)
    if amountDue.isNaN || amountDue.ltZero then
      .error ("Invalid amount: " ++ amountText)
    else
      let agencyEmail := undefIfEmpty (row.agencyEmail.map jsTrim)
      let daysLateStr := row.daysLate.map jsTrim
      let memberId := undefIfEmpty (row.memberId.map jsTrim)
      let phone := undefIfEmpty (row.phone.map jsTrim)
      let emailF := undefIfEmpty (row.email.map jsTrim)
      let mk : Option Int → ParsedMember := fun d =>
        { name := memberName.getD ""
          amount_due := amountDue
          agency_name := agencyName.getD ""
          agency_email := agencyEmail
          days_late := d
          member_id := memberId
          phone := phone
          email := emailF }
      if truthyOpt daysLateStr then
        match parseIntJS (daysLateStr.getD "") with
        | none => .error ("Invalid days late: " ++ daysLateStr.getD "")
        | some n =>
          if n < 0 then .error ("Invalid days late: " ++ daysLateStr.getD "")
          else .ok (mk (some n))
      else .ok (mk none)

/-- Lookup of a key in the agency map (object property access). -/
def lookupA : AgencyMap → String → Option AgencyWithMembers
  | [], _ => none
  | (k, g) :: rest, key => if k = key then some g else lookupA rest key

/-- Replace the value stored at an existing key of the agency map. -/
def updateA : AgencyMap → String → AgencyWithMembers → AgencyMap
  | [], _, _ => []
  | (k, g) :: rest, key, g' =>
    if k = key then (key, g') :: rest else (k, g) :: updateA rest key g'

/-- The state of one agency group after one record is folded into it
(csvParser.ts lines 150 to 167): creation with the record's email and the
derived needs_lookup, or the email fill-in guarded by the truthiness of the
incoming and stored emails, and in both cases the push of the member. -/
def nextGroup (og : Option AgencyWithMembers) (r : ParsedMember) : AgencyWithMembers :=
  match og with
  | none =>
    { agency_name := r.agency_name
      agency_email := r.agency_email
      needs_lookup := !truthyOpt r.agency_email
      members := [r] }
  | some g =>
    let g' :=
      if truthyOpt r.agency_email && !truthyOpt g.agency_email then
        { g with agency_email := r.agency_email, needs_lookup := false }
      else g
    { g' with members := g'.members ++ [r] }

/-- One step of the agency aggregation (csvParser.ts lines 150 to 167). -/
def foldRecord (m : AgencyMap) (r : ParsedMember) : AgencyMap :=
  match lookupA m r.agency_name with
  | none => m ++ [(r.agency_name, nextGroup none r)]
  | some g => updateA m r.agency_name (nextGroup (some g) r)

/-- Folding an ordered record sequence into an empty agency map. -/
def foldRecords (recs : List ParsedMember) : AgencyMap :=
  recs.foldl foldRecord []

/-- One row-processing step of parseCSV: an invalid row appends an error
carrying the file row number (index plus two); a valid row is folded into
the agency map and counted. -/
def parseStep (acc : AgencyMap × List ParseError × Nat) (ir : Nat × CSVRow) :
    AgencyMap × List ParseError × Nat :=
  match processRow ir.2 with
  | .error msg => (acc.1, acc.2.1 ++ [⟨(ir.1 : Int) + 2, msg⟩], acc.2.2)
  | .ok r => (foldRecord acc.1 r, acc.2.1, acc.2.2 + 1)

/-- The complete callback of parseCSV (csvParser.ts lines 90 to 196):
row-by-row best effort processing, after which the decoder-reported errors
are appended to the error list with a -1 row fallback (lines 179 to 188);
resolves with the map, errors, member count and number of distinct
agencies.  There is no zero-row check. -/
def parseCSVRows (results : PapaResults) : CSVParseResult :=
  let s := results.data.enum.foldl parseStep ([], [], 0)
  { data := s.1
    errors := s.2.1 ++ results.errors.map (fun e => ⟨e.row.getD (-1), e.message⟩)
    totalMembers := s.2.2
    totalAgencies := s.1.length }

/-- The whole parseCSV promise (csvParser.ts lines 80 to 203): a structural
decode failure of the underlying format rejects; a decoded result, with or
without decoder diagnostics, always resolves to a CSVParseResult. -/
def fullPipeline (decoded : Except String PapaResults) : Except String CSVParseResult :=
  match decoded with
  | .error e => .error ("CSV parsing failed: " ++ e)
  | .ok results => .ok (parseCSVRows results)

/-- The required columns of the full-schema variant (csvParser.ts line 217). -/
def requiredHeaders : List String := ["Member Name", "Amount", "Agency"]

/-- The result shape of validateCSVHeaders. -/
structure HeaderValidation where
  valid : Bool
  missingHeaders : List String
  foundHeaders : List String
deriving DecidableEq

/-- validateCSVHeaders (csvParser.ts lines 211 to 240) on the declared
header list: headers are trimmed, the required headers missing from them
are collected, and valid holds exactly when none is missing. -/
def validateCSVHeaders (declared : List String) : HeaderValidation :=
  let foundHeaders := declared.map jsTrim
  let missingHeaders := requiredHeaders.filter (fun h => !(foundHeaders.contains h))
  { valid := missingHeaders.length == 0
    missingHeaders := missingHeaders
    foundHeaders := foundHeaders }

/-- getAgenciesNeedingLookup (csvParser.ts lines 248 to 252). -/
def getAgenciesNeedingLookup (pr : AgencyMap) : List String :=
  (pr.filter (fun p => p.2.needs_lookup)).map (fun p => p.2.agency_name)

/-- The statistics record returned by calculateStatistics. -/
structure CSVStats where
  totalAmount : JSNum
  averageDaysLate : ℚ
  agenciesNeedingLookup : Nat
deriving DecidableEq

/-- The per-member accumulation of calculateStatistics (csvParser.ts lines
265 to 273): running amount total, days-late total and count of members
carrying a days-late value. -/
def statStep (acc : JSNum × Int × Nat) (mem : ParsedMember) : JSNum × Int × Nat :=
  match mem.days_late with
  | some d => (acc.1.add mem.amount_due, acc.2.1 + d, acc.2.2 + 1)
  | none => (acc.1.add mem.amount_due, acc.2.1, acc.2.2)

/-- calculateStatistics (csvParser.ts lines 260 to 280): the average is the
guarded quotient, zero when no member carries a days-late value. -/
def calculateStatistics (pr : AgencyMap) : CSVStats :=
  let s := pr.foldl (fun acc p => p.2.members.foldl statStep acc)
    ((JSNum.num 0, 0, 0) : JSNum × Int × Nat)
  { totalAmount := s.1
    averageDaysLate := if s.2.2 > 0 then (s.2.1 : ℚ) / (s.2.2 : ℚ) else 0
    agenciesNeedingLookup := (getAgenciesNeedingLookup pr).length }

/-! ## Notification-only variant: AgenciesTable.tsx -/

/-- A raw row of the notification-only upload: each of the four consumed
columns is present as a string or absent from the row object. -/
structure NotifRow where
  agencyEmailAddr : Option String
  memberFirstName : Option String
  memberLastName : Option String
  delinquentDays : Option String
deriving DecidableEq

/-- A parsed member of the notification-only variant (AgenciesTable.tsx,
interface ParsedMember).  delinquent_days is whatever Number produced. -/
structure NotifMember where
  name : String
  delinquent_days : JSNum
  agency_email : String
deriving DecidableEq

/-- The conversion String(x or empty).trim() applied to a row field. -/
def strField (o : Option String) : String :=
  jsTrim (o.getD "")

/-- mapRow (AgenciesTable.tsx lines 331 to 344): trim name parts and email,
convert the delinquent-days field with Number, reject when the first name
or email is empty or the days value is NaN, and compose the display name. -/
def mapRow (row : NotifRow) : Option NotifMember :=
  let first := strField row.memberFirstName
  let last := strField row.memberLastName
  let email := strField row.agencyEmailAddr
  let days := numberOpt row.delinquentDays
  if first == "" || email == "" || days.isNaN then none
  else
    some { name := if !(last == "") then first ++ " " ++ last else first
           delinquent_days := days
           agency_email := email }

/-- In parseExcelFile (AgenciesTable.tsx lines 360 to 379), sheet_to_json
is called with defval set to the empty string, so a blank spreadsheet cell
reaches mapRow as an empty-string field. -/
def excelBlankCell : Option String := some ""

/-- A blank cell that the CSV decoder leaves out of the row object reaches
mapRow as an undefined field. -/
def csvBlankCell : Option String := none

/-- The required columns of the notification-only variant
(AgenciesTable.tsx line 326). -/
def requiredColumns : List String :=
  ["Agency Email Address", "memberFirstName", "memberLastName", "delinquent_days"]

/-- Object.keys of a decoded row: the consumed columns present on it, in
declaration order. -/
def notifRowKeys (r : NotifRow) : List String :=
  (if r.agencyEmailAddr.isSome then ["Agency Email Address"] else []) ++
  (if r.memberFirstName.isSome then ["memberFirstName"] else []) ++
  (if r.memberLastName.isSome then ["memberLastName"] else []) ++
  (if r.delinquentDays.isSome then ["delinquent_days"] else [])

/-- Outcome of the notification-only upload pipeline: a thrown fatal error
caught by the drop handler, or the mapped members with the skipped count. -/
inductive UploadOutcome where
  | fatal : String → UploadOutcome
  | parsed : List NotifMember → Nat → UploadOutcome
deriving DecidableEq

/-- The onDrop pipeline of the notification-only upload (AgenciesTable.tsx
lines 395 to 457): extension check, zero-row check, required-column check
against the first row's keys, then row mapping with a skipped-row count and
a final no-valid-rows check. -/
def onDropPipeline (ext : String) (rows : List NotifRow) : UploadOutcome :=
  if !(ext == "csv" || ext == "xlsx" || ext == "xls") then
    .fatal "Unsupported file type. Please upload .csv or .xlsx"
  else
    match rows with
    | [] => .fatal "File is empty or contains no data rows"
    | r0 :: _ =>
      let headers := notifRowKeys r0
      let missing := requiredColumns.filter (fun c => !(headers.contains c))
      if !missing.isEmpty then
        .fatal ("Missing required columns: " ++ String.intercalate ", " missing)
      else
        let s := rows.foldl
          (fun (acc : List NotifMember × Nat) row =>
            match mapRow row with
            | some m => (acc.1 ++ [m], acc.2)
            | none => (acc.1, acc.2 + 1))
          ([], 0)
        if s.1.isEmpty then .fatal "No valid member rows found after parsing"
        else .parsed s.1 s.2

/-! ## Delivery dispatcher: send-batch-email/index.ts -/

/-- A dispatch target of the edge function (index.ts, interface Member).
A field is absent when the JSON payload omits it or gives it a value of
the wrong type, since the handler rejects both identically. -/
structure DispatchMember where
  name : Option String
  delinquent_days : Option JSNum
  agency_email : Option String
deriving DecidableEq

/-- The result of one transport call: the fetch either throws, or returns
a response whose ok flag and decoded body the handler inspects. -/
inductive TransportResult where
  | throws : String → TransportResult
  | response : Bool → String → TransportResult
deriving DecidableEq

/-- A success outcome pushed by the send loop (index.ts lines 167 to 172). -/
structure SendResult where
  member : String
  recipient : String
  email_id : String
deriving DecidableEq

/-- A failure outcome pushed by the send loop (index.ts lines 174 to 186). -/
structure SendError where
  member : String
  recipient : String
  error : String
deriving DecidableEq

/-- The combined response of the edge function (index.ts lines 190 to 201). -/
structure BatchReport where
  success : Bool
  message : String
  sent : List SendResult
  failed : List SendError
  status : Nat
deriving DecidableEq

/-- Whether the name check of the validation loop rejects a member
(index.ts line 109): falsy or non-string name. -/
def nameInvalid (m : DispatchMember) : Bool :=
  !truthyOpt m.name

/-- Whether the delinquent-days check rejects a member (index.ts line 119):
not a number, or negative.  NaN passes, as in the source, because the
comparison with zero is false on NaN. -/
def daysInvalid (m : DispatchMember) : Bool :=
  match m.delinquent_days with
  | none => true
  | some d => d.ltZero

/-- Whether the agency-email check rejects a member (index.ts line 129):
falsy or failing the address pattern. -/
def emailInvalid (m : DispatchMember) : Bool :=
  match m.agency_email with
  | none => true
  | some e => e == "" || !emailRegexTest e

/-- Whether any of the three per-member checks rejects the member. -/
def memberInvalid (m : DispatchMember) : Bool :=
  nameInvalid m || daysInvalid m || emailInvalid m

/-- The validation loop over the member list (index.ts lines 108 to 138):
the first failing check returns its message. -/
def firstMemberError : List DispatchMember → Option String
  | [] => none
  | m :: rest =>
    if nameInvalid m then some "Each member must have a valid name field"
    else if daysInvalid m then
      some "Each member must have a valid delinquent_days (non-negative number)"
    else if emailInvalid m then some "Each member must have a valid agency_email"
    else firstMemberError rest

/-- The pre-send validation of the request (index.ts lines 74 to 138):
non-empty member list, present and well-formed reply_to, then the
per-member loop.  Returns the message of the first failed check. -/
def validateRequest (reply_to : String) (l : List DispatchMember) : Option String :=
  if l.isEmpty then some "Missing or invalid field: member_list (must be non-empty array)"
  else if reply_to == "" then some "Missing required field: reply_to"
  else if !emailRegexTest reply_to then some "Invalid email format: reply_to"
  else firstMemberError l

/-- The display name and recipient recorded in an outcome. -/
def targetName (m : DispatchMember) : String := m.name.getD ""

/-- The recipient address recorded in an outcome. -/
def targetEmail (m : DispatchMember) : String := m.agency_email.getD ""

/-- Whether a transport result is a success response. -/
def isSent (t : DispatchMember → TransportResult) (m : DispatchMember) : Bool :=
  match t m with
  | .response true _ => true
  | _ => false

/-- The payload text of a transport result (the decoded body, or the
thrown message). -/
def transportText : TransportResult → String
  | .throws msg => msg
  | .response _ body => body

/-- The success outcome built for a member whose send succeeded. -/
def sentOutcome (t : DispatchMember → TransportResult) (m : DispatchMember) : SendResult :=
  { member := targetName m, recipient := targetEmail m, email_id := transportText (t m) }

/-- The failure outcome built for a member whose send failed or threw. -/
def failOutcome (t : DispatchMember → TransportResult) (m : DispatchMember) : SendError :=
  { member := targetName m, recipient := targetEmail m, error := transportText (t m) }

/-- One iteration of the send loop (index.ts lines 144 to 187): a success
response is pushed to the results, a failure response or a thrown error is
pushed to the errors; the loop never aborts. -/
def sendStep (t : DispatchMember → TransportResult)
    (acc : List SendResult × List SendError) (m : DispatchMember) :
    List SendResult × List SendError :=
  match t m with
  | .response true body =>
    (acc.1 ++ [⟨targetName m, targetEmail m, body⟩], acc.2)
  | .response false body =>
    (acc.1, acc.2 ++ [⟨targetName m, targetEmail m, body⟩])
  | .throws msg =>
    (acc.1, acc.2 ++ [⟨targetName m, targetEmail m, msg⟩])

/-- The send loop and the combined response (index.ts lines 140 to 201). -/
def runBatch (t : DispatchMember → TransportResult) (l : List DispatchMember) : BatchReport :=
  let s := l.foldl (sendStep t) ([], [])
  { success := s.2.length == 0
    message := toString s.1.length ++ " of " ++ toString l.length ++ " emails sent successfully"
    sent := s.1
    failed := s.2
    status := if s.2.length == l.length then 500 else 200 }

/-- The request handler (index.ts lines 57 to 215): a failed validation
returns its error without any transport call; otherwise the send loop runs
and the combined report is returned. -/
def sendBatchHandler (t : DispatchMember → TransportResult)
    (reply_to : String) (l : List DispatchMember) : Except String BatchReport :=
  match validateRequest reply_to l with
  | some e => .error e
  | none => .ok (runBatch t l)

/-! ## Supporting lemmas -/

lemma contains_iff_mem_trim (l : List String) (s : String) :
    l.contains s = true ↔ s ∈ l := by
  simp [List.contains, List.elem_iff]

lemma length_filter_split {α : Type} (l : List α) (p : α → Bool) :
    (l.filter p).length + (l.filter (fun x => !(p x))).length = l.length := by
  induction l with
  | nil => simp
  | cons x xs ih =>
    cases h : p x <;> simp [List.filter_cons, h] <;> omega

/-- All members of the aggregated structure, in iteration order. -/
def allMembers (pr : AgencyMap) : List ParsedMember :=
  (pr.map (fun p => p.2.members)).flatten

/-- The days-late values of the members that carry one. -/
def membersWithDays (pr : AgencyMap) : List Int :=
  (allMembers pr).filterMap (fun m => m.days_late)

lemma statStep_fold (ms : List ParsedMember) (a : JSNum) (td : Int) (c : Nat) :
    (ms.foldl statStep (a, td, c)).2 =
      (td + (ms.filterMap (fun m => m.days_late)).sum,
       c + (ms.filterMap (fun m => m.days_late)).length) := by
  induction ms generalizing a td c with
  | nil => simp
  | cons m ms ih =>
    cases h : m.days_late with
    | none => simp [statStep, h, ih]
    | some d =>
      simp only [List.foldl_cons, statStep, h, ih, List.filterMap_cons, List.sum_cons,
        List.length_cons, Prod.mk.injEq]
      omega

lemma stats_fold_allMembers (pr : AgencyMap) (init : JSNum × Int × Nat) :
    pr.foldl (fun acc p => p.2.members.foldl statStep acc) init =
      (allMembers pr).foldl statStep init := by
  induction pr generalizing init with
  | nil => simp [allMembers]
  | cons p ps ih =>
    simp only [List.foldl_cons, allMembers, List.map_cons, List.flatten_cons, List.foldl_append]
    exact ih _

/-! ## C8: averageDaysLate -/

/-- C8.  calculateStatistics returns averageDaysLate equal to the sum of
days_late over the members that carry a days_late value divided by the
count of such members, and exactly 0 when no member carries one (in
particular on the empty structure); the value is a total rational, never
NaN and never an exception. -/
theorem averageDaysLate_div_or_zero (pr : AgencyMap) :
    (calculateStatistics pr).averageDaysLate =
      if (membersWithDays pr).length = 0 then 0
      else ((membersWithDays pr).sum : ℚ) / ((membersWithDays pr).length : ℚ) := by
  simp only [calculateStatistics, stats_fold_allMembers, statStep_fold, membersWithDays,
    zero_add]
  rcases Nat.eq_zero_or_pos ((allMembers pr).filterMap (fun m => m.days_late)).length with h | h
  · simp [h]
  · rw [if_pos h, if_neg (Nat.pos_iff_ne_zero.mp h)]

/-! ## C9: header validation -/

/-- C9.  validateCSVHeaders returns as missingHeaders exactly the required
columns (Member Name, Amount, Agency) that do not occur among the trimmed
declared headers under exact case-sensitive match, valid holds exactly when
nothing is missing, and the file declaring Member Name and Agency yields
invalid with missingHeaders equal to the single column Amount. -/
theorem validateCSVHeaders_spec (declared : List String) :
    (∀ s : String, s ∈ (validateCSVHeaders declared).missingHeaders ↔
        (s ∈ requiredHeaders ∧ s ∉ declared.map jsTrim)) ∧
    ((validateCSVHeaders declared).valid = true ↔
        (validateCSVHeaders declared).missingHeaders = []) ∧
    (validateCSVHeaders ["Member Name", "Agency"]).valid = false ∧
    (validateCSVHeaders ["Member Name", "Agency"]).missingHeaders = ["Amount"] := by
  refine ⟨?_, ?_, by decide, by decide⟩
  · intro s
    simp only [validateCSVHeaders, List.mem_filter, Bool.not_eq_true']
    rw [← Bool.not_eq_true (List.contains _ s), contains_iff_mem_trim]
  · simp only [validateCSVHeaders, Nat.beq_eq_true_eq, List.length_eq_zero]

/-! ## C3: zero data rows -/

/-- C3 counterexample.  On zero decoded rows the full-schema parseCSV does
not fail: it resolves with an ordinary empty ParseResult, while the
notification-only pipeline is fatal, so the claimed both-variant behaviour
is false, both for a clean zero-row decode and for one carrying a decoder
diagnostic (the zero-byte-file case, where the decoder reports an
undetectable delimiter). -/
theorem zero_rows_fullSchema_not_fatal :
    fullPipeline (Except.ok { data := [], errors := [] }) =
      Except.ok { data := [], errors := [], totalMembers := 0, totalAgencies := 0 } ∧
    fullPipeline (Except.ok ⟨[], [⟨none, "UndetectableDelimiter"⟩]⟩) =
      Except.ok ⟨[], [⟨-1, "UndetectableDelimiter"⟩], 0, 0⟩ ∧
    onDropPipeline "csv" [] =
      UploadOutcome.fatal "File is empty or contains no data rows" := by
  exact ⟨by decide, by decide, by decide⟩

/-- C3 amended.  Only the notification-only upload pipeline treats zero
decoded data rows as fatal (error text: File is empty or contains no data
rows); the full-schema CSV pipeline has no zero-row check: whatever
diagnostics the decoder reported, it resolves successfully with a
ParseResult containing no groups, zero members, zero agencies, and an
errors list holding exactly those decoder diagnostics (row -1 when the
diagnostic has no row number). -/
theorem zero_rows_behavior_amended (ext : String) (perrs : List PapaError)
    (h : ext = "csv" ∨ ext = "xlsx" ∨ ext = "xls") :
    onDropPipeline ext [] =
      UploadOutcome.fatal "File is empty or contains no data rows" ∧
    fullPipeline (Except.ok { data := [], errors := perrs }) =
      Except.ok { data := []
                  errors := perrs.map (fun e => ⟨e.row.getD (-1), e.message⟩)
                  totalMembers := 0
                  totalAgencies := 0 } := by
  constructor
  · rcases h with h | h | h <;> subst h <;> decide
  · rfl

/-- Witness for the amended C3 at the concrete extension csv with one
decoder diagnostic. -/
theorem zero_rows_behavior_amended_witness :
    onDropPipeline "csv" [] =
      UploadOutcome.fatal "File is empty or contains no data rows" ∧
    fullPipeline (Except.ok ⟨[], [⟨none, "UndetectableDelimiter"⟩]⟩) =
      Except.ok ⟨[], [⟨-1, "UndetectableDelimiter"⟩], 0, 0⟩ := by
  have h := zero_rows_behavior_amended "csv"
    [⟨none, "UndetectableDelimiter"⟩] (Or.inl rfl)
  exact ⟨h.1, h.2.trans (by decide)⟩

/-! ## C4 and C5: row-mapper coercions -/

/-- The trimmed amount text of a row. -/
def trimmedAmount (row : CSVRow) : String := (row.amount.map jsTrim).getD ""

/-- The amount value the row mapper computes: parseFloat of the text with
dollar signs and commas removed. -/
def parsedAmount (row : CSVRow) : JSNum := parseFloatJS (stripCurrency (trimmedAmount row))

/-- Whether the amount check rejects the row: NaN or negative. -/
def amountBad (row : CSVRow) : Bool := (parsedAmount row).isNaN || (parsedAmount row).ltZero

/-- Whether all three required fields are non-empty after trimming. -/
def requiredPresent (row : CSVRow) : Bool :=
  truthyOpt (row.memberName.map jsTrim) && truthyOpt (row.amount.map jsTrim) &&
    truthyOpt (row.agency.map jsTrim)

/-- The trimmed days-late field of a row. -/
def trimmedDays (row : CSVRow) : Option String := row.daysLate.map jsTrim

/-- The trimmed days-late text of a row (empty when absent). -/
def daysText (row : CSVRow) : String := (trimmedDays row).getD ""

/-- The member built by processRow for a row that passes every check. -/
def mkMember (row : CSVRow) (d : Option Int) : ParsedMember :=
  { name := (row.memberName.map jsTrim).getD ""
    amount_due := parsedAmount row
    agency_name := (row.agency.map jsTrim).getD ""
    agency_email := undefIfEmpty (row.agencyEmail.map jsTrim)
    days_late := d
    member_id := undefIfEmpty (row.memberId.map jsTrim)
    phone := undefIfEmpty (row.phone.map jsTrim)
    email := undefIfEmpty (row.email.map jsTrim) }

lemma processRow_error_amount (row : CSVRow) (hreq : requiredPresent row = true)
    (hbad : amountBad row = true) :
    processRow row = Except.error ("Invalid amount: " ++ trimmedAmount row) := by
  simp only [requiredPresent, Bool.and_eq_true] at hreq
  obtain ⟨⟨h1, h2⟩, h3⟩ := hreq
  simp only [amountBad, parsedAmount, trimmedAmount] at hbad
  simp [processRow, h1, h2, h3, hbad, trimmedAmount]

lemma processRow_eq (row : CSVRow) (hreq : requiredPresent row = true)
    (hok : amountBad row = false) :
    processRow row =
      (if truthyOpt (trimmedDays row) then
        match parseIntJS (daysText row) with
        | none => Except.error ("Invalid days late: " ++ daysText row)
        | some n =>
          if n < 0 then Except.error ("Invalid days late: " ++ daysText row)
          else Except.ok (mkMember row (some n))
       else Except.ok (mkMember row none)) := by
  simp only [requiredPresent, Bool.and_eq_true] at hreq
  obtain ⟨⟨h1, h2⟩, h3⟩ := hreq
  simp only [amountBad, parsedAmount, trimmedAmount] at hok
  simp [processRow, h1, h2, h3, hok, mkMember, parsedAmount, trimmedAmount, trimmedDays,
    daysText]

lemma parseFold_data (rows : List CSVRow) :
    ∀ (n : Nat) (m : AgencyMap) (e : List ParseError) (t : Nat),
      ((List.enumFrom n rows).foldl parseStep (m, e, t)).1 =
        (rows.filterMap (fun r => (processRow r).toOption)).foldl foldRecord m := by
  induction rows with
  | nil => intro n m e t; simp
  | cons r rs ih =>
    intro n m e t
    cases hp : processRow r with
    | error msg => simp [List.enumFrom, parseStep, hp, Except.toOption, ih]
    | ok mem => simp [List.enumFrom, parseStep, hp, Except.toOption, ih]

/-- C4 counterexample.  The stripped amount text Infinity parses to the
non-finite value Infinity, passes the NaN and negativity checks, and the
row is accepted with an infinite amount_due, so acceptance is not limited
to finite amounts. -/
theorem amount_infinity_accepted :
    parseFloatJS (stripCurrency "Infinity") = JSNum.inf ∧
    processRow { memberName := some "A", amount := some "Infinity", agency := some "B",
                 agencyEmail := none, daysLate := none, memberId := none, phone := none,
                 email := none } =
      Except.ok { name := "A", amount_due := JSNum.inf, agency_name := "B",
                  agency_email := none, days_late := none, member_id := none,
                  phone := none, email := none } := by
  exact ⟨by decide, by decide⟩

/-- C4 amended.  For a row whose required fields are present after
trimming, the mapper strips dollar signs and commas from the Amount text
and accepts the row only if the stripped text parses to a value that is
neither NaN nor negative (the non-finite value Infinity is therefore
accepted, with amount_due equal to it); otherwise it rejects the row with
an Invalid amount message naming the offending trimmed value, and a
rejected row contributes nothing to any group. -/
theorem amount_validation_amended :
    (∀ row : CSVRow, requiredPresent row = true →
      (amountBad row = true →
        processRow row = Except.error ("Invalid amount: " ++ trimmedAmount row)) ∧
      (∀ m, processRow row = Except.ok m →
        amountBad row = false ∧ m.amount_due = parsedAmount row)) ∧
    (∀ rows : List CSVRow, ∀ perrs : List PapaError,
      (parseCSVRows { data := rows, errors := perrs }).data =
        foldRecords (rows.filterMap (fun r => (processRow r).toOption))) := by
  constructor
  · intro row hreq
    refine ⟨processRow_error_amount row hreq, ?_⟩
    intro m hm
    cases hb : amountBad row with
    | true =>
      rw [processRow_error_amount row hreq hb] at hm
      exact absurd hm (by simp)
    | false =>
      refine ⟨rfl, ?_⟩
      rw [processRow_eq row hreq hb] at hm
      split at hm
      · split at hm
        · exact absurd hm (by simp)
        · split at hm
          · exact absurd hm (by simp)
          · cases hm
            rfl
      · cases hm
        rfl
  · intro rows perrs
    show ((List.enumFrom 0 rows).foldl parseStep ([], [], 0)).1 = _
    exact parseFold_data rows 0 [] [] 0

/-- Witness for the amended C4: a concrete rejected row and its message. -/
theorem amount_validation_amended_witness :
    processRow { memberName := some "A", amount := some "abc", agency := some "B",
                 agencyEmail := none, daysLate := none, memberId := none, phone := none,
                 email := none } =
      Except.error "Invalid amount: abc" :=
  (amount_validation_amended.1 _ (by decide)).1 (by decide)

lemma processRow_error_required (row : CSVRow) (h : requiredPresent row = false) :
    processRow row =
      Except.error "Missing required fields (Member Name, Amount, or Agency)" := by
  cases h1 : truthyOpt (row.memberName.map jsTrim) <;>
    cases h2 : truthyOpt (row.amount.map jsTrim) <;>
      cases h3 : truthyOpt (row.agency.map jsTrim) <;>
        simp_all [processRow, requiredPresent]

lemma mapRow_eq (nr : NotifRow) :
    mapRow nr =
      (if strField nr.memberFirstName == "" || strField nr.agencyEmailAddr == "" ||
          (numberOpt nr.delinquentDays).isNaN then none
       else some
        { name :=
            if !(strField nr.memberLastName == "") then
              strField nr.memberFirstName ++ " " ++ strField nr.memberLastName
            else strField nr.memberFirstName
          delinquent_days := numberOpt nr.delinquentDays
          agency_email := strField nr.agencyEmailAddr }) := rfl

/-- C5 counterexample.  In the notification-only variant a row whose
delinquent_days text is -5 is accepted (Number yields the negative value
-5, which is not NaN), so acceptance is not limited to non-negative
integer text. -/
theorem negative_days_accepted_notifVariant :
    mapRow { agencyEmailAddr := some "a@b.c", memberFirstName := some "John",
             memberLastName := some "", delinquentDays := some "-5" } =
      some { name := "John", delinquent_days := JSNum.num (-5), agency_email := "a@b.c" } ∧
    (JSNum.num (-5)).ltZero = true := by
  exact ⟨by decide, by decide⟩

/-- C5 amended.  In the full-schema variant a present non-empty Days Late
text must parseInt to a non-negative integer, else the row is rejected
with an Invalid days late message naming the value, and an accepted member
carries exactly the parsed non-negative value; in the notification-only
variant the row is rejected only when Number of the delinquent_days field
is NaN (absent field or non-numeric text), so negative and non-integer
numeric values are accepted unchanged. -/
theorem days_late_validation_amended :
    (∀ row : CSVRow, requiredPresent row = true → amountBad row = false →
        truthyOpt (trimmedDays row) = true →
        (parseIntJS (daysText row) = none ∨
          (∃ n, parseIntJS (daysText row) = some n ∧ n < 0)) →
        processRow row = Except.error ("Invalid days late: " ++ daysText row)) ∧
    (∀ row : CSVRow, ∀ m, processRow row = Except.ok m → ∀ n, m.days_late = some n →
        0 ≤ n ∧ parseIntJS (daysText row) = some n ∧ truthyOpt (trimmedDays row) = true) ∧
    (∀ nr : NotifRow, (mapRow nr).isSome = true ↔
        (strField nr.memberFirstName ≠ "" ∧ strField nr.agencyEmailAddr ≠ "" ∧
         (numberOpt nr.delinquentDays).isNaN = false)) ∧
    (∀ nr : NotifRow, ∀ m, mapRow nr = some m →
        m.delinquent_days = numberOpt nr.delinquentDays) := by
  refine ⟨?_, ?_, ?_, ?_⟩
  · intro row hreq hamt hdays hbad
    rw [processRow_eq row hreq hamt, if_pos hdays]
    rcases hbad with h | ⟨n, h, hn⟩
    · rw [h]
    · rw [h]
      simp [hn]
  · intro row m hm n hn
    cases hreq : requiredPresent row with
    | false =>
      rw [processRow_error_required row hreq] at hm
      exact absurd hm (by simp)
    | true =>
      cases hb : amountBad row with
      | true =>
        rw [processRow_error_amount row hreq hb] at hm
        exact absurd hm (by simp)
      | false =>
        rw [processRow_eq row hreq hb] at hm
        split at hm
        · split at hm
          · exact absurd hm (by simp)
          · next k heq =>
            split at hm
            · exact absurd hm (by simp)
            · next hk =>
              cases hm
              simp only [mkMember] at hn
              cases hn
              refine ⟨by omega, heq, by assumption⟩
        · next hd =>
          cases hm
          simp only [mkMember] at hn
          exact absurd hn (by simp)
  · intro nr
    rw [mapRow_eq]
    cases hc : (strField nr.memberFirstName == "" || strField nr.agencyEmailAddr == "" ||
        (numberOpt nr.delinquentDays).isNaN) with
    | true =>
      rw [if_pos rfl]
      simp only [Option.isSome_none]
      constructor
      · intro hf
        exact absurd hf (by simp)
      · rintro ⟨h1, h2, h3⟩
        exfalso
        simp only [Bool.or_eq_true, beq_iff_eq] at hc
        rcases hc with (h | h) | h
        · exact h1 h
        · exact h2 h
        · rw [h] at h3
          cases h3
    | false =>
      rw [if_neg (by simp)]
      simp only [Option.isSome_some, true_iff]
      refine ⟨?_, ?_, ?_⟩
      · intro h
        rw [h] at hc
        simp at hc
      · intro h
        rw [h] at hc
        simp at hc
      · cases h : (numberOpt nr.delinquentDays).isNaN
        · rfl
        · rw [h] at hc
          simp at hc
  · intro nr m hm
    rw [mapRow_eq] at hm
    split at hm
    · exact absurd hm (by simp)
    · cases hm
      rfl

/-- Witness for the amended C5: a concrete full-schema rejection of
non-numeric days text, and a concrete notification-only acceptance. -/
theorem days_late_validation_amended_witness :
    processRow { memberName := some "A", amount := some "5", agency := some "B",
                 agencyEmail := none, daysLate := some "xx", memberId := none, phone := none,
                 email := none } =
      Except.error "Invalid days late: xx" :=
  days_late_validation_amended.1 _ (by decide) (by decide) (by decide) (Or.inl (by decide))

/-! ## C6 and C7: dispatcher -/

lemma sendLoop_spec (t : DispatchMember → TransportResult) (l : List DispatchMember) :
    ∀ (a : List SendResult) (b : List SendError),
      l.foldl (sendStep t) (a, b) =
        (a ++ (l.filter (fun m => isSent t m)).map (sentOutcome t),
         b ++ (l.filter (fun m => !(isSent t m))).map (failOutcome t)) := by
  induction l with
  | nil => intro a b; simp
  | cons m ms ih =>
    intro a b
    cases ht : t m with
    | response ok body =>
      cases ok with
      | true =>
        simp [List.filter_cons, sendStep, ht, ih, isSent, sentOutcome, failOutcome,
          transportText, List.append_assoc]
      | false =>
        simp [List.filter_cons, sendStep, ht, ih, isSent, sentOutcome, failOutcome,
          transportText, List.append_assoc]
    | throws msg =>
      simp [List.filter_cons, sendStep, ht, ih, isSent, sentOutcome, failOutcome,
        transportText, List.append_assoc]

/-- C6.  For a batch that passes pre-send validation, the handler returns a
report in which the sent outcomes are exactly those of the targets whose
transport call returned a success response and the failed outcomes exactly
those of the targets whose call threw or returned a non-success response
(each target represented exactly once, in order), the two parts together
cover the whole batch, and the success flag holds exactly when failed is
empty. -/
theorem dispatch_partition_and_success (t : DispatchMember → TransportResult)
    (r : String) (l : List DispatchMember) (h : validateRequest r l = none) :
    ∃ rep, sendBatchHandler t r l = Except.ok rep ∧
      rep.sent = (l.filter (fun m => isSent t m)).map (sentOutcome t) ∧
      rep.failed = (l.filter (fun m => !(isSent t m))).map (failOutcome t) ∧
      rep.sent.length + rep.failed.length = l.length ∧
      (rep.success = true ↔ rep.failed = []) := by
  refine ⟨runBatch t l, by simp [sendBatchHandler, h], ?_, ?_, ?_, ?_⟩
  · simp [runBatch, sendLoop_spec]
  · simp [runBatch, sendLoop_spec]
  · simp only [runBatch, sendLoop_spec, List.nil_append, List.length_map]
    exact length_filter_split l (fun m => isSent t m)
  · simp only [runBatch, sendLoop_spec, List.nil_append, Nat.beq_eq_true_eq,
      List.length_eq_zero]

/-- Witness for C6: the three-target batch in which the second target's
transport call throws yields two sent, one failed, success false. -/
theorem dispatch_partition_and_success_witness :
    ∃ rep,
      sendBatchHandler
        (fun m => if m.name == some "B" then .throws "network error" else .response true "id-1")
        "r@x.co"
        [{ name := some "A", delinquent_days := some (JSNum.num 3), agency_email := some "a@x.co" },
         { name := some "B", delinquent_days := some (JSNum.num 4), agency_email := some "b@x.co" },
         { name := some "C", delinquent_days := some (JSNum.num 5), agency_email := some "c@x.co" }] =
        Except.ok rep ∧
      rep.sent.length = 2 ∧ rep.failed.length = 1 ∧ rep.success = false := by
  obtain ⟨rep, h1, h2, h3, h4, h5⟩ :=
    dispatch_partition_and_success
      (fun m => if m.name == some "B" then .throws "network error" else .response true "id-1")
      "r@x.co"
      [{ name := some "A", delinquent_days := some (JSNum.num 3), agency_email := some "a@x.co" },
       { name := some "B", delinquent_days := some (JSNum.num 4), agency_email := some "b@x.co" },
       { name := some "C", delinquent_days := some (JSNum.num 5), agency_email := some "c@x.co" }]
      (by decide)
  refine ⟨rep, h1, ?_, ?_, ?_⟩
  · rw [h2]
    decide
  · rw [h3]
    decide
  · have hne : rep.failed ≠ [] := by
      rw [h3]
      decide
    cases hs : rep.success with
    | false => rfl
    | true => exact absurd (h5.mp hs) hne

lemma firstMemberError_none (l : List DispatchMember) :
    firstMemberError l = none → ∀ m ∈ l, memberInvalid m = false := by
  induction l with
  | nil =>
    intro h m hm
    cases hm
  | cons x xs ih =>
    intro h m hm
    by_cases h1 : nameInvalid x = true
    · simp [firstMemberError, h1] at h
    · by_cases h2 : daysInvalid x = true
      · simp [firstMemberError, h1, h2] at h
      · by_cases h3 : emailInvalid x = true
        · simp [firstMemberError, h1, h2, h3] at h
        · simp only [firstMemberError, h1, h2, h3, if_false] at h
          rcases List.mem_cons.mp hm with hm | hm
          · subst hm
            simp only [Bool.not_eq_true] at h1 h2 h3
            simp [memberInvalid, h1, h2, h3]
          · exact ih h m hm

lemma validateRequest_none_members (r : String) (l : List DispatchMember)
    (h : validateRequest r l = none) : firstMemberError l = none := by
  simp only [validateRequest] at h
  split at h
  · cases h
  · split at h
    · cases h
    · split at h
      · cases h
      · exact h

/-- C7 counterexample.  A batch whose first target has an invalid name and
whose second target has an invalid (negative) delinquent_days is rejected
with the single fixed name-field message: the rejection is identical to the
one produced when the second target is absent, so it is not a list of which
fields are invalid on which items. -/
theorem validation_single_message_counterexample :
    daysInvalid { name := some "Bob", delinquent_days := some (JSNum.num (-2)),
                  agency_email := some "c@d.co" } = true ∧
    validateRequest "r@x.co"
      [{ name := none, delinquent_days := some (JSNum.num 3), agency_email := some "a@b.co" },
       { name := some "Bob", delinquent_days := some (JSNum.num (-2)),
         agency_email := some "c@d.co" }] =
      some "Each member must have a valid name field" ∧
    validateRequest "r@x.co"
      [{ name := none, delinquent_days := some (JSNum.num 3), agency_email := some "a@b.co" }] =
      some "Each member must have a valid name field" ∧
    sendBatchHandler (fun _ => .response true "id") "r@x.co"
      [{ name := none, delinquent_days := some (JSNum.num 3), agency_email := some "a@b.co" },
       { name := some "Bob", delinquent_days := some (JSNum.num (-2)),
         agency_email := some "c@d.co" }] =
      Except.error "Each member must have a valid name field" := by
  exact ⟨by decide, by decide, by decide, by decide⟩

/-- C7 amended.  When at least one target of the batch has an invalid
required field, the handler rejects the whole batch before any send
attempt: the validation error is returned for every transport function
(so no transport outcome can influence the response), but the rejection is
a single error message for the first failed check in scan order, not a
list of per-item violations. -/
theorem validation_rejects_before_send_amended (r : String) (l : List DispatchMember)
    (h : ∃ m ∈ l, memberInvalid m = true) :
    ∃ e, validateRequest r l = some e ∧
      ∀ t : DispatchMember → TransportResult,
        sendBatchHandler t r l = Except.error e := by
  cases hv : validateRequest r l with
  | some e =>
    exact ⟨e, rfl, fun t => by simp [sendBatchHandler, hv]⟩
  | none =>
    exfalso
    obtain ⟨m, hm, hinv⟩ := h
    have := firstMemberError_none l (validateRequest_none_members r l hv) m hm
    rw [hinv] at this
    cases this

/-- Witness for the amended C7 at a concrete invalid batch. -/
theorem validation_rejects_before_send_amended_witness :
    ∃ e, validateRequest "a@b.co"
        [{ name := some "Bob", delinquent_days := some (JSNum.num (-2)),
           agency_email := some "c@d.co" }] = some e ∧
      ∀ t : DispatchMember → TransportResult,
        sendBatchHandler t "a@b.co"
          [{ name := some "Bob", delinquent_days := some (JSNum.num (-2)),
             agency_email := some "c@d.co" }] = Except.error e :=
  validation_rejects_before_send_amended "a@b.co" _ ⟨_, List.mem_singleton_self _, by decide⟩

/-! ## C1 and C2: agency aggregation -/

/-- First-some choice on optional strings (the or-else of two optionals). -/
def orFirst (a b : Option String) : Option String :=
  match a with
  | some x => some x
  | none => b

/-- The agencyEmail of the first record for the key that carries one. -/
def emailsFor (recs : List ParsedMember) (k : String) : Option String :=
  (recs.filter (fun r => r.agency_name == k)).findSome? (fun r => r.agency_email)

/-- A map is canonical when no stored group email is the empty string (the
pipeline turns empty emails into absent ones before aggregation). -/
def canonMap (m : AgencyMap) : Prop :=
  ∀ p ∈ m, p.2.agency_email ≠ some ""

/-- The C2 invariant over a whole map. -/
def invMap (m : AgencyMap) : Prop :=
  ∀ p ∈ m, p.2.needs_lookup = p.2.agency_email.isNone

lemma truthy_of_canon (o : Option String) (h : o ≠ some "") : truthyOpt o = o.isSome := by
  cases o with
  | none => rfl
  | some s =>
    have hs : s ≠ "" := fun e => h (by rw [e])
    simp [truthyOpt, hs]

lemma not_truthy_canon (o : Option String) (h : o ≠ some "") : (!truthyOpt o) = o.isNone := by
  cases o with
  | none => rfl
  | some s =>
    have hs : s ≠ "" := fun e => h (by rw [e])
    simp [truthyOpt, hs]

lemma lookupA_append (m : AgencyMap) (k key : String) (g0 : AgencyWithMembers) :
    lookupA (m ++ [(k, g0)]) key =
      match lookupA m key with
      | some g => some g
      | none => if k = key then some g0 else none := by
  induction m with
  | nil => simp [lookupA]
  | cons p ps ih =>
    obtain ⟨k', g'⟩ := p
    by_cases hp : k' = key
    · simp [lookupA, hp]
    · simp [lookupA, hp, ih]

lemma lookupA_updateA_ne (m : AgencyMap) (k : String) (g' : AgencyWithMembers)
    (key : String) (h : k ≠ key) :
    lookupA (updateA m k g') key = lookupA m key := by
  induction m with
  | nil => simp [updateA]
  | cons p ps ih =>
    obtain ⟨k'', g''⟩ := p
    by_cases hp : k'' = k
    · subst hp
      simp [updateA, lookupA, h]
    · simp [updateA, lookupA, hp, ih]

lemma lookupA_updateA_eq (m : AgencyMap) (k : String) (g' : AgencyWithMembers)
    (h : (lookupA m k).isSome = true) :
    lookupA (updateA m k g') k = some g' := by
  induction m with
  | nil => simp [lookupA] at h
  | cons p ps ih =>
    obtain ⟨k'', g''⟩ := p
    by_cases hp : k'' = k
    · subst hp
      simp [updateA, lookupA]
    · simp only [lookupA, hp, if_false] at h
      simp [updateA, lookupA, hp, ih h]

lemma lookupA_mem (m : AgencyMap) (k : String) (g : AgencyWithMembers)
    (h : lookupA m k = some g) : (k, g) ∈ m := by
  induction m with
  | nil => cases h
  | cons p ps ih =>
    obtain ⟨k', g'⟩ := p
    by_cases hp : k' = k
    · subst hp
      simp only [lookupA, if_pos rfl] at h
      cases h
      exact List.mem_cons_self _ _
    · simp only [lookupA, hp, if_false] at h
      exact List.mem_cons_of_mem _ (ih h)

lemma mem_updateA (m : AgencyMap) (k : String) (g' : AgencyWithMembers)
    (p : String × AgencyWithMembers) (hp : p ∈ updateA m k g') :
    p ∈ m ∨ p = (k, g') := by
  induction m with
  | nil => cases hp
  | cons q qs ih =>
    obtain ⟨k'', g''⟩ := q
    by_cases hq : k'' = k
    · subst hq
      simp only [updateA, if_pos rfl] at hp
      rcases List.mem_cons.mp hp with h | h
      · right
        exact h
      · left
        exact List.mem_cons_of_mem _ h
    · simp only [updateA, hq, if_false] at hp
      rcases List.mem_cons.mp hp with h | h
      · left
        rw [h]
        exact List.mem_cons_self _ _
      · rcases ih h with h' | h'
        · left
          exact List.mem_cons_of_mem _ h'
        · right
          exact h'

lemma lookupA_foldRecord_self (m : AgencyMap) (r : ParsedMember) :
    lookupA (foldRecord m r) r.agency_name =
      some (nextGroup (lookupA m r.agency_name) r) := by
  unfold foldRecord
  cases h : lookupA m r.agency_name with
  | none => simp [lookupA_append, h]
  | some g => exact lookupA_updateA_eq m _ _ (by simp [h])

lemma lookupA_foldRecord_ne (m : AgencyMap) (r : ParsedMember) (key : String)
    (h : r.agency_name ≠ key) :
    lookupA (foldRecord m r) key = lookupA m key := by
  unfold foldRecord
  cases h' : lookupA m r.agency_name with
  | none =>
    rw [lookupA_append]
    cases h2 : lookupA m key <;> simp [h]
  | some g => exact lookupA_updateA_ne m _ _ key h

lemma nextGroup_email (og : Option AgencyWithMembers) (r : ParsedMember) :
    (nextGroup og r).agency_email =
      match og with
      | none => r.agency_email
      | some g =>
        if truthyOpt r.agency_email && !truthyOpt g.agency_email then r.agency_email
        else g.agency_email := by
  cases og with
  | none => rfl
  | some g =>
    by_cases hc : (truthyOpt r.agency_email && !truthyOpt g.agency_email) = true
    · simp [nextGroup, hc]
    · simp [nextGroup, hc]

lemma nextGroup_needs (og : Option AgencyWithMembers) (r : ParsedMember) :
    (nextGroup og r).needs_lookup =
      match og with
      | none => !truthyOpt r.agency_email
      | some g =>
        if truthyOpt r.agency_email && !truthyOpt g.agency_email then false
        else g.needs_lookup := by
  cases og with
  | none => rfl
  | some g =>
    by_cases hc : (truthyOpt r.agency_email && !truthyOpt g.agency_email) = true
    · simp [nextGroup, hc]
    · simp [nextGroup, hc]

lemma canonMap_foldRecord (m : AgencyMap) (r : ParsedMember)
    (hm : canonMap m) (hr : r.agency_email ≠ some "") : canonMap (foldRecord m r) := by
  intro p hp
  unfold foldRecord at hp
  cases h : lookupA m r.agency_name with
  | none =>
    rw [h] at hp
    rcases List.mem_append.mp hp with h' | h'
    · exact hm p h'
    · have : p = (r.agency_name, nextGroup none r) := by simpa using h'
      rw [this]
      exact hr
  | some g =>
    rw [h] at hp
    rcases mem_updateA _ _ _ p hp with h' | h'
    · exact hm p h'
    · rw [h']
      show (nextGroup (some g) r).agency_email ≠ some ""
      rw [nextGroup_email]
      simp only []
      split
      · exact hr
      · exact hm (r.agency_name, g) (lookupA_mem m _ g h)

lemma invMap_foldRecord (m : AgencyMap) (r : ParsedMember)
    (hm : invMap m) (hr : r.agency_email ≠ some "") :
    invMap (foldRecord m r) := by
  intro p hp
  unfold foldRecord at hp
  cases h : lookupA m r.agency_name with
  | none =>
    rw [h] at hp
    rcases List.mem_append.mp hp with h' | h'
    · exact hm p h'
    · have : p = (r.agency_name, nextGroup none r) := by simpa using h'
      rw [this]
      show (nextGroup none r).needs_lookup = (nextGroup none r).agency_email.isNone
      rw [nextGroup_needs, nextGroup_email]
      exact not_truthy_canon _ hr
  | some g =>
    rw [h] at hp
    rcases mem_updateA _ _ _ p hp with h' | h'
    · exact hm p h'
    · rw [h']
      show (nextGroup (some g) r).needs_lookup = (nextGroup (some g) r).agency_email.isNone
      rw [nextGroup_needs, nextGroup_email]
      simp only []
      split
      · next hc =>
        have ht : truthyOpt r.agency_email = true := (Bool.and_eq_true _ _ |>.mp hc).1
        rw [truthy_of_canon _ hr] at ht
        cases he : r.agency_email with
        | none =>
          rw [he] at ht
          cases ht
        | some s => simp
      · exact hm (r.agency_name, g) (lookupA_mem m _ g h)

lemma foldl_canon_inv (recs : List ParsedMember) :
    ∀ m : AgencyMap, canonMap m → invMap m → (∀ r ∈ recs, r.agency_email ≠ some "") →
      canonMap (recs.foldl foldRecord m) ∧ invMap (recs.foldl foldRecord m) := by
  induction recs with
  | nil =>
    intro m hc hi _
    exact ⟨hc, hi⟩
  | cons r rs ih =>
    intro m hc hi hr
    have hrc : r.agency_email ≠ some "" := hr r (List.mem_cons_self r rs)
    have hrs : ∀ x ∈ rs, x.agency_email ≠ some "" :=
      fun x hx => hr x (List.mem_cons_of_mem r hx)
    exact ih (foldRecord m r) (canonMap_foldRecord m r hc hrc)
      (invMap_foldRecord m r hi hrc) hrs

/-- Expected group email after folding records into a map whose group for
the key currently carries cur (or does not exist): the current email if
any, else the first email supplied by the records for the key. -/
def groupEmailSpec (cur : Option AgencyWithMembers) (recs : List ParsedMember)
    (k : String) : Option (Option String) :=
  match cur with
  | some g => some (orFirst g.agency_email (emailsFor recs k))
  | none =>
    if (recs.filter (fun r => r.agency_name == k)).isEmpty then none
    else some (emailsFor recs k)

lemma orFirst_emailUpd (ge re rest : Option String) (hg : ge ≠ some "")
    (hr : re ≠ some "") :
    orFirst (if truthyOpt re && !truthyOpt ge then re else ge) rest =
      orFirst ge (orFirst re rest) := by
  cases ge with
  | some s =>
    have hs : s ≠ "" := fun e => hg (by rw [e])
    simp [truthyOpt, hs, orFirst]
  | none =>
    cases re with
    | some s2 =>
      have hs2 : s2 ≠ "" := fun e => hr (by rw [e])
      simp [truthyOpt, hs2, orFirst]
    | none => simp [truthyOpt, orFirst]

lemma emailsFor_cons_self (r : ParsedMember) (rs : List ParsedMember) :
    emailsFor (r :: rs) r.agency_name =
      orFirst r.agency_email (emailsFor rs r.agency_name) := by
  simp only [emailsFor, List.filter_cons, beq_self_eq_true, if_true, List.findSome?_cons]
  cases re : r.agency_email <;> simp [orFirst]

lemma emailsFor_cons_ne (r : ParsedMember) (rs : List ParsedMember) (k : String)
    (h : r.agency_name ≠ k) : emailsFor (r :: rs) k = emailsFor rs k := by
  have hpred : (r.agency_name == k) = false := beq_eq_false_iff_ne.mpr h
  simp [emailsFor, List.filter_cons, hpred]

lemma fold_groupEmail (recs : List ParsedMember) :
    ∀ m : AgencyMap, canonMap m → (∀ r ∈ recs, r.agency_email ≠ some "") → ∀ k : String,
      (lookupA (recs.foldl foldRecord m) k).map (fun g => g.agency_email) =
        groupEmailSpec (lookupA m k) recs k := by
  induction recs with
  | nil =>
    intro m _ _ k
    rw [List.foldl_nil]
    cases h : lookupA m k with
    | none => simp [groupEmailSpec, h, emailsFor]
    | some g =>
      cases ge : g.agency_email <;> simp [groupEmailSpec, h, emailsFor, orFirst, ge]
  | cons r rs ih =>
    intro m hm hr k
    have hrc : r.agency_email ≠ some "" := hr r (List.mem_cons_self r rs)
    have hrs : ∀ x ∈ rs, x.agency_email ≠ some "" :=
      fun x hx => hr x (List.mem_cons_of_mem r hx)
    rw [List.foldl_cons, ih (foldRecord m r) (canonMap_foldRecord m r hm hrc) hrs k]
    by_cases hk : r.agency_name = k
    · subst hk
      rw [lookupA_foldRecord_self]
      cases h : lookupA m r.agency_name with
      | none =>
        simp [groupEmailSpec, nextGroup, List.filter_cons, emailsFor_cons_self]
      | some g =>
        have hg : g.agency_email ≠ some "" := hm (r.agency_name, g) (lookupA_mem m _ g h)
        simp only [groupEmailSpec, emailsFor_cons_self, nextGroup_email]
        rw [orFirst_emailUpd _ _ _ hg hrc]
    · rw [lookupA_foldRecord_ne m r k hk]
      have hpred : (r.agency_name == k) = false := beq_eq_false_iff_ne.mpr hk
      cases h : lookupA m k with
      | none =>
        simp [groupEmailSpec, List.filter_cons, hpred, emailsFor_cons_ne r rs k hk]
      | some g =>
        simp [groupEmailSpec, emailsFor_cons_ne r rs k hk]

/-- C1.  For a canonical record sequence (no empty-string emails, as the
row mapper guarantees), the aggregated group stored for a key carries the
agencyEmail of the first record for that key whose agencyEmail is present:
a later differing email never overwrites it, and a record with an email
arriving after an email-less creation fills it in. -/
theorem agencyEmail_first_nonempty_wins (recs : List ParsedMember)
    (hcanon : ∀ r ∈ recs, r.agency_email ≠ some "") (k : String) (g : AgencyWithMembers)
    (h : lookupA (foldRecords recs) k = some g) :
    g.agency_email =
      (recs.filter (fun r => r.agency_name == k)).findSome? (fun r => r.agency_email) := by
  have hmain := fold_groupEmail recs [] (fun p hp => absurd hp (List.not_mem_nil p)) hcanon k
  simp only [foldRecords] at h
  rw [h] at hmain
  simp only [Option.map_some'] at hmain
  simp only [lookupA, groupEmailSpec] at hmain
  split at hmain
  · cases hmain
  · exact Option.some.inj hmain

/-- Input of the C1 witness: two records for one agency carrying two
different non-empty emails. -/
def recsW1 : List ParsedMember :=
  [{ name := "M1", amount_due := JSNum.num 10, agency_name := "A",
     agency_email := some "a1@x.co", days_late := none, member_id := none, phone := none,
     email := none },
   { name := "M2", amount_due := JSNum.num 5, agency_name := "A",
     agency_email := some "a2@x.co", days_late := none, member_id := none, phone := none,
     email := none }]

/-- Group produced for the C1 witness input. -/
def gW1 : AgencyWithMembers :=
  { agency_name := "A", agency_email := some "a1@x.co", needs_lookup := false,
    members := recsW1 }

/-- Witness for C1: with two different non-empty emails the earlier one is
retained. -/
theorem agencyEmail_first_nonempty_wins_witness :
    lookupA (foldRecords recsW1) "A" = some gW1 ∧ gW1.agency_email = some "a1@x.co" :=
  ⟨by decide,
   (agencyEmail_first_nonempty_wins recsW1 (by decide) "A" gW1 (by decide)).trans (by decide)⟩

/-- C2.  In every intermediate and final state of the aggregation of a
canonical record sequence (each intermediate state being the fold of a
shorter front segment), every stored group satisfies
needs_lookup = (agency_email is absent). -/
theorem needsLookup_iff_email_absent (recs : List ParsedMember)
    (hcanon : ∀ r ∈ recs, r.agency_email ≠ some "") (n : Nat) (k : String)
    (g : AgencyWithMembers)
    (h : lookupA (foldRecords (recs.take n)) k = some g) :
    g.needs_lookup = g.agency_email.isNone := by
  have hc : ∀ r ∈ recs.take n, r.agency_email ≠ some "" :=
    fun r hr => hcanon r (List.take_subset n recs hr)
  have hinv := (foldl_canon_inv (recs.take n) [] (fun p hp => absurd hp (List.not_mem_nil p))
    (fun p hp => absurd hp (List.not_mem_nil p)) hc).2
  exact hinv (k, g) (lookupA_mem _ _ _ (by simpa [foldRecords] using h))

/-- Input of the C2 witness: an email-less record followed by one carrying
an email, for the same agency. -/
def recsW2 : List ParsedMember :=
  [{ name := "M1", amount_due := JSNum.num 10, agency_name := "A",
     agency_email := none, days_late := none, member_id := none, phone := none,
     email := none },
   { name := "M2", amount_due := JSNum.num 5, agency_name := "A",
     agency_email := some "x@y.z", days_late := none, member_id := none, phone := none,
     email := none }]

/-- Group produced for the C2 witness input after both records. -/
def gW2 : AgencyWithMembers :=
  { agency_name := "A", agency_email := some "x@y.z", needs_lookup := false,
    members := recsW2 }

/-- Witness for C2 at the state after both records are folded. -/
theorem needsLookup_iff_email_absent_witness :
    lookupA (foldRecords (recsW2.take 2)) "A" = some gW2 ∧
    gW2.needs_lookup = gW2.agency_email.isNone :=
  ⟨by decide, needsLookup_iff_email_absent recsW2 (by decide) 2 "A" gW2 (by decide)⟩

/-! ## C10: blank delinquent_days cells -/

lemma mapRow_accept (nr : NotifRow) (h1 : strField nr.memberFirstName ≠ "")
    (h2 : strField nr.agencyEmailAddr ≠ "")
    (h3 : (numberOpt nr.delinquentDays).isNaN = false) :
    mapRow nr = some
      { name :=
          if !(strField nr.memberLastName == "") then
            strField nr.memberFirstName ++ " " ++ strField nr.memberLastName
          else strField nr.memberFirstName
        delinquent_days := numberOpt nr.delinquentDays
        agency_email := strField nr.agencyEmailAddr } := by
  have h1' := beq_eq_false_iff_ne.mpr h1
  have h2' := beq_eq_false_iff_ne.mpr h2
  rw [mapRow_eq, if_neg (by simp [h1', h2', h3])]

lemma mapRow_reject_nan (nr : NotifRow) (h : (numberOpt nr.delinquentDays).isNaN = true) :
    mapRow nr = none := by
  rw [mapRow_eq, if_pos (by simp [h])]

/-- C10.  For a notification-only row whose name and email fields are
valid, a delinquent_days field holding the empty string (which is what the
Excel decoder's defval substitution delivers for a blank cell) is accepted
with delinquent_days 0, because Number of the empty string is 0; a field
that is absent from the row object (the blank cell of a decoded CSV row)
is rejected, as is any field whose Number conversion is NaN, and those are
the only rejections of the days field: an accepted member always carries
exactly the Number value of the field. -/
theorem blank_days_cell_xlsx_vs_csv (first last email : String)
    (hf : jsTrim first ≠ "") (he : jsTrim email ≠ "") :
    (∃ m, mapRow { agencyEmailAddr := some email, memberFirstName := some first,
                   memberLastName := some last, delinquentDays := excelBlankCell } = some m ∧
       m.delinquent_days = JSNum.num 0) ∧
    numberOpt excelBlankCell = JSNum.num 0 ∧
    mapRow { agencyEmailAddr := some email, memberFirstName := some first,
             memberLastName := some last, delinquentDays := csvBlankCell } = none ∧
    (∀ s : String, (numberJS s).isNaN = true →
      mapRow { agencyEmailAddr := some email, memberFirstName := some first,
               memberLastName := some last, delinquentDays := some s } = none) ∧
    (∀ ds : Option String, ∀ m,
      mapRow { agencyEmailAddr := some email, memberFirstName := some first,
               memberLastName := some last, delinquentDays := ds } = some m →
      (numberOpt ds).isNaN = false ∧ m.delinquent_days = numberOpt ds) := by
  have hf' : (jsTrim first == "") = false := beq_eq_false_iff_ne.mpr hf
  have he' : (jsTrim email == "") = false := beq_eq_false_iff_ne.mpr he
  refine ⟨?_, by decide, ?_, ?_, ?_⟩
  · exact ⟨_,
      mapRow_accept _ hf he
        (by show (numberOpt excelBlankCell).isNaN = false; decide),
      by show numberOpt excelBlankCell = JSNum.num 0; decide⟩
  · exact mapRow_reject_nan _ (by show (numberOpt csvBlankCell).isNaN = true; decide)
  · intro s hs
    exact mapRow_reject_nan _ (by simpa [numberOpt] using hs)
  · intro ds m hm
    rw [mapRow_eq] at hm
    split at hm
    · exact absurd hm (by simp)
    · next hc =>
      cases hm
      refine ⟨?_, rfl⟩
      cases hn : (numberOpt ds).isNaN with
      | false => rfl
      | true =>
        simp only [strField, Option.getD_some, hn] at hc
        rw [hf', he'] at hc
        simp at hc

/-- Witness for C10 at a concrete name and email. -/
theorem blank_days_cell_xlsx_vs_csv_witness :
    (∃ m, mapRow { agencyEmailAddr := some "a@b.c", memberFirstName := some "John",
                   memberLastName := some "Doe", delinquentDays := excelBlankCell } = some m ∧
       m.delinquent_days = JSNum.num 0) ∧
    mapRow { agencyEmailAddr := some "a@b.c", memberFirstName := some "John",
             memberLastName := some "Doe", delinquentDays := csvBlankCell } = none := by
  have h := blank_days_cell_xlsx_vs_csv "John" "Doe" "a@b.c" (by decide) (by decide)
  exact ⟨h.1, h.2.2.1⟩
